import Mathlib

/-!
Verification of the mcp-box repository: a shallow embedding of the
registry search/scoring engine (src/registry/index.ts) and of the agent
configuration adapters (src/adapters/base.ts, claude.ts, vscode.ts,
src/utils/config.ts), together with theorems settling the specification
claims about them.

Conventions used throughout:
* JavaScript strings are modelled as Lean String values; the JS string
  methods used by the code (toLowerCase, trim, includes, slice, ...) are
  re-implemented below on the underlying character list, so that every
  definition evaluates by kernel reduction.
* JavaScript numbers are modelled as Int where the code only ever holds
  integers (download counts, parseInt results) and as Rat where fractions
  arise (relevance scores, which mix integer weights with the 0.5 factor
  and the fuzzy-match division).
* Fallible operations return Except String; the mutable file system and
  the mutable registry cache are passed as explicit state.
-/

/-- Models JavaScript "c.toLowerCase()" on a single character (ASCII case
mapping, which is all the repository's data uses). -/
def jsCharLower (c : Char) : Char := c.toLower

/-- Models JavaScript "s.toLowerCase()" (String.prototype.toLowerCase). -/
def jsToLower (s : String) : String := String.mk (s.data.map jsCharLower)

/-- Models the JS whitespace class used by String.prototype.trim and the
regular expression \s (ASCII whitespace, which is all that occurs here). -/
def jsIsWs (c : Char) : Bool := c = ' ' ∨ c = '\t' ∨ c = '\n' ∨ c = '\r'

/-- Models JavaScript "s.trim()". -/
def jsTrim (s : String) : String :=
  String.mk (((s.data.dropWhile jsIsWs).reverse.dropWhile jsIsWs).reverse)

/-- Models JavaScript "hay.includes(need)": contiguous substring test. -/
def containsSub (hay need : String) : Bool :=
  (List.range (hay.data.length + 1)).any
    (fun i => need.data.isPrefixOf (hay.data.drop i))

/-- Digit accumulator for jsParseIntOr0. -/
def digitsVal (cs : List Char) : Nat :=
  cs.foldl (fun acc c => acc * 10 + (c.toNat - '0'.toNat)) 0

/-- Models JavaScript "parseInt(s) || 0": skip leading whitespace, read an
optional sign and then a maximal run of decimal digits; NaN (no digits at
all) is collapsed to 0 by the "|| 0". -/
def jsParseIntOr0 (s : String) : Int :=
  let cs := s.data.dropWhile jsIsWs
  let (neg, cs) : Bool × List Char :=
    match cs with
    | '-' :: rest => (true, rest)
    | '+' :: rest => (false, rest)
    | rest => (false, rest)
  let digits := cs.takeWhile Char.isDigit
  if digits.isEmpty then 0
  else if neg then -(digitsVal digits : Int) else (digitsVal digits : Int)

/-- Models "str.endsWith(suffix)" for a one-character suffix. -/
def endsWithChar (s : String) (c : Char) : Bool :=
  match s.data.getLast? with
  | some d => d = c
  | none => false

/-- Models "s.slice(0, -1)": drop the final character. -/
def dropLastChar (s : String) : String := String.mk (s.data.dropLast)

/-- Registry entry, following the MCPServer interface in
src/types/registry.d.ts restricted to the fields the search and statistics
code reads.  classification ranges over "official", "community",
"reference"; transport types over "stdio", "http", "sse". -/
structure MCPServer where
  id : String
  name : String
  title : String
  description : String
  maintainer : String
  classification : String
  license : Option String
  estWeeklyDownloads : String
  lastUpdated : String
  supportedPlatforms : List String
  transportTypes : List String
  npmPackage : Option String
  dockerSupport : Bool
  tags : List String
  category : Option String
  deriving DecidableEq, Inhabited

/-- Registry metadata, following RegistryMetadata in src/types/registry.d.ts
(the counter record classifications is modelled as an association list). -/
structure RegistryMetadata where
  version : String
  lastUpdated : String
  totalServers : Nat
  sources : List String
  classifications : List (String × Nat)
  categories : List String
  tags : List String
  deriving DecidableEq, Inhabited

/-- The registry document, following MCPRegistry in src/types/registry.d.ts. -/
structure MCPRegistry where
  metadata : RegistryMetadata
  servers : List MCPServer
  deriving DecidableEq, Inhabited

/-- Embeds MCPRegistryManager.parseDownloads (src/registry/index.ts lines
312-329): turn a human readable downloads string such as "50k" or
"1,200,000" into a number.  The replace(/[,\s]/g, '') is the comma and
whitespace strip after lowercasing. -/
def parseDownloads (downloadsStr : String) : Int :=
  if downloadsStr = "" ∨ downloadsStr = "N/A" then 0
  else
    let str := String.mk ((jsToLower downloadsStr).data.filter
      (fun c => ¬ (c = ',' ∨ jsIsWs c)))
    if endsWithChar str '+' then jsParseIntOr0 (dropLastChar str)
    else if endsWithChar str 'k' then jsParseIntOr0 (dropLastChar str) * 1000
    else if endsWithChar str 'm' then jsParseIntOr0 (dropLastChar str) * 1000000
    else jsParseIntOr0 str

/-- Loop of MCPRegistryManager.fuzzyMatch (src/registry/index.ts lines
276-288): walk the text once, advancing through the pattern on every
character match and rewarding runs of consecutive matches.  Returns the
final patternIdx and accumulated score. -/
def fuzzyGo (pattern : List Char) : List Char → Nat → Nat → Nat → Nat × Nat
  | [], patternIdx, score, _ => (patternIdx, score)
  | c :: rest, patternIdx, score, consecutiveMatches =>
    if h : patternIdx < pattern.length then
      if c = pattern.get ⟨patternIdx, h⟩ then
        fuzzyGo pattern rest (patternIdx + 1) (score + (consecutiveMatches + 1))
          (consecutiveMatches + 1)
      else
        fuzzyGo pattern rest patternIdx score 0
    else (patternIdx, score)

/-- Embeds MCPRegistryManager.fuzzyMatch (src/registry/index.ts lines
272-291).  The result is score / pattern.length when the whole pattern was
consumed as a subsequence of the text, and 0 otherwise. -/
def fuzzyMatch (pattern text : String) : ℚ :=
  if pattern.length = 0 then 0
  else if text.length = 0 then 0
  else
    let (patternIdx, score) := fuzzyGo pattern.data text.data 0 0 0
    if patternIdx = pattern.length then (score : ℚ) / (pattern.length : ℚ)
    else 0

/-- Running score after the five exact-match lines of
calculateRelevanceScore (src/registry/index.ts lines 244-249): the
"Exact matches" block of the source, factored out of its let chain. -/
def scoreAfterSubstr (server : MCPServer) (queryLower : String) : ℚ :=
  let score : ℚ := 0
  let score := if containsSub (jsToLower server.name) queryLower then score + 10 else score
  let score := if containsSub (jsToLower server.title) queryLower then score + 8 else score
  let score := if containsSub (jsToLower server.description) queryLower then score + 5 else score
  let score := if containsSub (jsToLower server.maintainer) queryLower then score + 3 else score
  let score := if server.tags.any (fun tag => containsSub (jsToLower tag) queryLower)
    then score + 4 else score
  score

/-- Embeds MCPRegistryManager.calculateRelevanceScore (src/registry/index.ts
lines 240-267): the exact-match block (scoreAfterSubstr), then the fuzzy
bonus taken only when the running score is still 0, then the popularity and
official boosts, mirroring the sequential accumulation of the source. -/
def calculateRelevanceScore (server : MCPServer) (query : String) (fuzzy : Bool) : ℚ :=
  let queryLower := jsToLower query
  let score := scoreAfterSubstr server queryLower
  let score := if fuzzy ∧ score = 0 then
      score + (fuzzyMatch queryLower (jsToLower server.name) +
        fuzzyMatch queryLower (jsToLower server.description) * (1/2))
    else score
  let downloads := parseDownloads server.estWeeklyDownloads
  let score := if downloads > 10000 then score + 2
    else if downloads > 1000 then score + 1 else score
  let score := if server.classification = "official" then score + 2 else score
  score

/-- Embeds MCPRegistryManager.getMatchedFields (src/registry/index.ts lines
296-307). -/
def getMatchedFields (server : MCPServer) (query : String) : List String :=
  let queryLower := jsToLower query
  let fields : List String := []
  let fields := if containsSub (jsToLower server.name) queryLower then fields ++ ["name"] else fields
  let fields := if containsSub (jsToLower server.title) queryLower then fields ++ ["title"] else fields
  let fields := if containsSub (jsToLower server.description) queryLower then fields ++ ["description"] else fields
  let fields := if containsSub (jsToLower server.maintainer) queryLower then fields ++ ["maintainer"] else fields
  let fields := if server.tags.any (fun tag => containsSub (jsToLower tag) queryLower)
    then fields ++ ["tags"] else fields
  fields

/-- Search filters, following SearchFilters in src/types/registry.d.ts; every
field is optional there, so each is an Option here and searchServers applies
the destructuring defaults of src/registry/index.ts lines 100-112. -/
structure SearchFilters where
  query : Option String := none
  tags : Option (List String) := none
  classification : Option (List String) := none
  transportTypes : Option (List String) := none
  supportedPlatforms : Option (List String) := none
  maintainer : Option String := none
  category : Option String := none
  license : Option String := none
  minDownloads : Option Int := none
  dockerSupport : Option Bool := none
  hasNpmPackage : Option Bool := none
  deriving DecidableEq, Inhabited

/-- Search options, following SearchOptions in src/types/registry.d.ts.
limit and offset are JS numbers used as non-negative indices, modelled as
Nat. -/
structure SearchOptions where
  fuzzy : Option Bool := none
  limit : Option Nat := none
  offset : Option Nat := none
  sortBy : Option String := none
  sortOrder : Option String := none
  deriving DecidableEq, Inhabited

/-- One scored search hit, following SearchResult in
src/types/registry.d.ts. -/
structure SearchResult where
  server : MCPServer
  score : ℚ
  matchedFields : List String
  deriving DecidableEq, Inhabited

/-- Search response, following SearchResponse in src/types/registry.d.ts. -/
structure SearchResponse where
  results : List SearchResult
  total : Nat
  hasMore : Bool
  filters : SearchFilters
  query : String
  deriving DecidableEq, Inhabited

/-- Embeds the filter callback of searchServers (src/registry/index.ts lines
125-183) with its early returns as a chain of conditionals.  The arguments
are the destructured filter fields; a JS truthiness test on an optional
string (maintainer, category, license) is the conjunction of presence and
non-emptiness. -/
def serverPassesFilters (classification transportTypes supportedPlatforms tags : List String)
    (maintainer category license : Option String) (minDownloads : Option Int)
    (dockerSupport hasNpmPackage : Option Bool) (server : MCPServer) : Bool :=
  if classification.length > 0 ∧ ¬ classification.contains server.classification then false
  else if transportTypes.length > 0 ∧
      ¬ transportTypes.any (fun t => server.transportTypes.contains t) then false
  else if supportedPlatforms.length > 0 ∧
      ¬ supportedPlatforms.any (fun p => server.supportedPlatforms.contains p) then false
  else if tags.length > 0 ∧ ¬ tags.any (fun t => server.tags.contains t) then false
  else if (match maintainer with
    | some m => decide (m ≠ "") && ! containsSub (jsToLower server.maintainer) (jsToLower m)
    | none => false) then false
  else if (match category with
    | some c => decide (c ≠ "") && decide (server.category ≠ some c)
    | none => false) then false
  else if (match license with
    | some l => decide (l ≠ "") && decide (server.license ≠ some l)
    | none => false) then false
  else if (match dockerSupport with
    | some b => decide (server.dockerSupport ≠ b)
    | none => false) then false
  else if (match hasNpmPackage with
    | some b => decide ((match server.npmPackage with
        | some p => decide (p ≠ "")
        | none => false) ≠ b)
    | none => false) then false
  else if (match minDownloads with
    | some md => decide (parseDownloads server.estWeeklyDownloads < md)
    | none => false) then false
  else true

/-- Lexicographic character-list order; models aName.localeCompare(bName) <= 0
for the ASCII names in the registry (localeCompare is locale dependent in
general). -/
def lexLe : List Char → List Char → Bool
  | [], _ => true
  | _ :: _, [] => false
  | a :: as, b :: bs => if a = b then lexLe as bs else decide (a < b)

/-- Comparator of the sort step of searchServers (src/registry/index.ts lines
204-221), expressed as the "a stays before b" relation of a stable sort:
sortLe a b holds exactly when the JS comparator returns a value less than
or equal to 0 on (a, b).  For sortBy = "updated" the code compares
new Date(lastUpdated).getTime(); the registry's lastUpdated strings are
ISO-8601 dates, whose chronological order is their lexicographic order,
which is how the Date comparison is modelled. -/
def sortLe (sortBy sortOrder : String) (a b : SearchResult) : Bool :=
  if sortBy = "relevance" then
    if sortOrder = "desc" then b.score ≤ a.score else a.score ≤ b.score
  else if sortBy = "downloads" then
    let aDownloads := parseDownloads a.server.estWeeklyDownloads
    let bDownloads := parseDownloads b.server.estWeeklyDownloads
    if sortOrder = "desc" then bDownloads ≤ aDownloads else aDownloads ≤ bDownloads
  else if sortBy = "name" then
    let aName := (jsToLower a.server.name).data
    let bName := (jsToLower b.server.name).data
    if sortOrder = "desc" then lexLe bName aName else lexLe aName bName
  else if sortBy = "updated" then
    if sortOrder = "desc" then lexLe b.server.lastUpdated.data a.server.lastUpdated.data
    else lexLe a.server.lastUpdated.data b.server.lastUpdated.data
  else true

/-- Filter step of searchServers (src/registry/index.ts lines 125-183): the
candidate set of servers that survive every supplied filter. -/
def candidateServers (registry : MCPRegistry) (filters : SearchFilters) : List MCPServer :=
  registry.servers.filter
    (serverPassesFilters (filters.classification.getD []) (filters.transportTypes.getD [])
      (filters.supportedPlatforms.getD []) (filters.tags.getD [])
      filters.maintainer filters.category filters.license filters.minDownloads
      filters.dockerSupport filters.hasNpmPackage)

/-- Scoring step of searchServers (src/registry/index.ts lines 186-201): on a
non-empty (after trimming) query, score every filtered server and keep the
results with positive score; on an empty query every filtered server is kept
with score 1 and no matched fields. -/
def searchMatches (registry : MCPRegistry) (filters : SearchFilters)
    (options : SearchOptions) : List SearchResult :=
  let query := filters.query.getD ""
  let fuzzy := options.fuzzy.getD true
  if jsTrim query ≠ "" then
    ((candidateServers registry filters).map (fun server =>
      { server := server
        score := calculateRelevanceScore server query fuzzy
        matchedFields := getMatchedFields server query })).filter
      (fun result => decide (result.score > 0))
  else
    (candidateServers registry filters).map (fun server =>
      { server := server, score := 1, matchedFields := [] })

/-- Embeds MCPRegistryManager.searchServers (src/registry/index.ts lines
93-235) over an already loaded registry: filter (candidateServers), score
(searchMatches), sort stably by the comparator, and paginate with
slice(offset, offset + limit). -/
def searchServers (registry : MCPRegistry) (filters : SearchFilters)
    (options : SearchOptions) : SearchResponse :=
  let query := filters.query.getD ""
  let limit := options.limit.getD 50
  let offset := options.offset.getD 0
  let sortBy := options.sortBy.getD "relevance"
  let sortOrder := options.sortOrder.getD "desc"
  let results := (searchMatches registry filters options).mergeSort (sortLe sortBy sortOrder)
  let total := results.length
  let paginatedResults := (results.drop offset).take limit
  let hasMore := decide (offset + limit < total)
  { results := paginatedResults
    total := total
    hasMore := hasMore
    filters := filters
    query := jsTrim query }

/-- Spec-side reading of C1: the field-weighted sum of the fixed weights for
case-insensitive substring containment of the query in name (10), title (8),
description (5), maintainer (3) and tags (4). -/
def specSubstrScore (server : MCPServer) (query : String) : ℚ :=
  (if containsSub (jsToLower server.name) (jsToLower query) then 10 else 0) +
  (if containsSub (jsToLower server.title) (jsToLower query) then 8 else 0) +
  (if containsSub (jsToLower server.description) (jsToLower query) then 5 else 0) +
  (if containsSub (jsToLower server.maintainer) (jsToLower query) then 3 else 0) +
  (if server.tags.any (fun tag => containsSub (jsToLower tag) (jsToLower query)) then 4 else 0)

/-- Spec-side reading of C1: the fuzzy-match bonus, a subsequence score on
the name plus half the subsequence score on the description. -/
def specFuzzyBonus (server : MCPServer) (query : String) : ℚ :=
  fuzzyMatch (jsToLower query) (jsToLower server.name) +
  fuzzyMatch (jsToLower query) (jsToLower server.description) * (1/2)

/-- Spec-side reading of C1: the popularity boost (+2 above 10000 weekly
downloads, +1 above 1000). -/
def specPopBoost (server : MCPServer) : ℚ :=
  if parseDownloads server.estWeeklyDownloads > 10000 then 2
  else if parseDownloads server.estWeeklyDownloads > 1000 then 1 else 0

/-- Spec-side reading of C1: the official-status boost. -/
def specOffBoost (server : MCPServer) : ℚ :=
  if server.classification = "official" then 2 else 0

/-- The running score of the exact-match block is exactly the spec-side
field-weighted substring sum. -/
theorem scoreAfterSubstr_eq_spec (server : MCPServer) (query : String) :
    scoreAfterSubstr server (jsToLower query) = specSubstrScore server query := by
  simp only [scoreAfterSubstr, specSubstrScore]
  split_ifs <;> norm_num

/-- Decomposition of the relevance score into the four spec-side
components; shared by the claims about scoring and about search results. -/
theorem calcScore_eq_components (server : MCPServer) (query : String) (fuzzy : Bool) :
    calculateRelevanceScore server query fuzzy =
      specSubstrScore server query +
      (if fuzzy ∧ specSubstrScore server query = 0 then specFuzzyBonus server query else 0) +
      specPopBoost server + specOffBoost server := by
  simp only [calculateRelevanceScore, scoreAfterSubstr_eq_spec, specFuzzyBonus, specPopBoost,
    specOffBoost]
  split_ifs <;> ring

/-- C1 (amended): for every server, query and fuzzy flag, the relevance
score computed by calculateRelevanceScore equals the field-weighted
substring sum, plus the fuzzy-match bonus restricted to the case where
fuzzy matching is enabled and no weighted field matched (substring sum 0),
plus the popularity boost, plus the official-status boost. -/
theorem claim_C1 (server : MCPServer) (query : String) (fuzzy : Bool) :
    calculateRelevanceScore server query fuzzy =
      specSubstrScore server query +
      (if fuzzy ∧ specSubstrScore server query = 0 then specFuzzyBonus server query else 0) +
      specPopBoost server + specOffBoost server :=
  calcScore_eq_components server query fuzzy

/-- Concrete server used to refute claim C1 as literally stated. -/
def cexServerC1 : MCPServer :=
  { id := "abc-server"
    name := "abc"
    title := "The helper"
    description := "does things"
    maintainer := "someone"
    classification := "community"
    license := none
    estWeeklyDownloads := "N/A"
    lastUpdated := "2024-01-01"
    supportedPlatforms := ["claude"]
    transportTypes := ["stdio"]
    npmPackage := none
    dockerSupport := false
    tags := []
    category := none }

/-- Claim C1 as stated (score = substring sum + fuzzy bonus + boosts, with
the fuzzy bonus unconditional) is false: for the server named "abc" and the
non-empty query "abc" the code computes 10 (the fuzzy bonus is skipped as
soon as any substring field matches) while the claimed sum is 12. -/
theorem claim_C1_cex :
    calculateRelevanceScore cexServerC1 "abc" true ≠
      specSubstrScore cexServerC1 "abc" + specFuzzyBonus cexServerC1 "abc" +
        specPopBoost cexServerC1 + specOffBoost cexServerC1 ∧
    calculateRelevanceScore cexServerC1 "abc" true = 10 ∧
    specSubstrScore cexServerC1 "abc" + specFuzzyBonus cexServerC1 "abc" +
      specPopBoost cexServerC1 + specOffBoost cexServerC1 = 12 := by
  refine ?_
  have main : calculateRelevanceScore cexServerC1 "abc" true = 10 ∧
      specSubstrScore cexServerC1 "abc" + specFuzzyBonus cexServerC1 "abc" +
        specPopBoost cexServerC1 + specOffBoost cexServerC1 = 12 := by
    have hname : containsSub (jsToLower "abc") (jsToLower "abc") = true := by decide
    have htitle : containsSub (jsToLower "The helper") (jsToLower "abc") = false := by decide
    have hdesc : containsSub (jsToLower "does things") (jsToLower "abc") = false := by decide
    have hmaint : containsSub (jsToLower "someone") (jsToLower "abc") = false := by decide
    have hfgo : fuzzyGo (jsToLower "abc").data (jsToLower "abc").data 0 0 0 = (3, 6) := by decide
    have hfgo2 : fuzzyGo (jsToLower "abc").data (jsToLower "does things").data 0 0 0 = (0, 0) := by
      decide
    have hdl : parseDownloads "N/A" = 0 := by decide
    have hlen : (jsToLower "abc").length = 3 := by decide
    have hlen2 : ((jsToLower "does things").length = 0) = False :=
      eq_false (by decide)
    have hcls : (("community" : String) = "official") = False := eq_false (by decide)
    constructor
    · simp only [calculateRelevanceScore, scoreAfterSubstr, cexServerC1, hname, htitle, hdesc,
        hmaint, hdl, hcls, List.any_nil, if_true, if_false]
      norm_num
    · simp only [specSubstrScore, specFuzzyBonus, specPopBoost, specOffBoost, cexServerC1,
        hname, htitle, hdesc, hmaint, hdl, hcls, List.any_nil, if_true, if_false]
      simp only [fuzzyMatch, hfgo, hfgo2, hlen, hlen2]
      norm_num
  refine ⟨?_, main⟩
  rw [main.1, main.2]
  norm_num

/-- Spec-side reading of C2: when a classification filter is supplied (a
non-empty list), the server's classification must be among the requested
ones. -/
def classificationOk (filters : SearchFilters) (s : MCPServer) : Prop :=
  filters.classification.getD [] ≠ [] → s.classification ∈ filters.classification.getD []

/-- Spec-side reading of C2: when a transport-types filter is supplied, the
server must support at least one requested transport. -/
def transportOk (filters : SearchFilters) (s : MCPServer) : Prop :=
  filters.transportTypes.getD [] ≠ [] →
    ∃ t ∈ filters.transportTypes.getD [], t ∈ s.transportTypes

/-- Spec-side reading of C2: when a supported-platforms filter is supplied,
the server must support at least one requested platform. -/
def platformsOk (filters : SearchFilters) (s : MCPServer) : Prop :=
  filters.supportedPlatforms.getD [] ≠ [] →
    ∃ p ∈ filters.supportedPlatforms.getD [], p ∈ s.supportedPlatforms

/-- Spec-side reading of C2: when a tags filter is supplied, the server must
carry at least one requested tag. -/
def tagsOk (filters : SearchFilters) (s : MCPServer) : Prop :=
  filters.tags.getD [] ≠ [] → ∃ t ∈ filters.tags.getD [], t ∈ s.tags

/-- Spec-side reading of C2: when a (non-empty) maintainer filter is
supplied, it must occur case-insensitively inside the server's maintainer. -/
def maintainerOk (filters : SearchFilters) (s : MCPServer) : Prop :=
  ∀ m, filters.maintainer = some m → m ≠ "" →
    containsSub (jsToLower s.maintainer) (jsToLower m) = true

/-- Spec-side reading of C2: when a (non-empty) category filter is supplied,
the server's category must equal it. -/
def categoryOk (filters : SearchFilters) (s : MCPServer) : Prop :=
  ∀ c, filters.category = some c → c ≠ "" → s.category = some c

/-- Spec-side reading of C2: when a (non-empty) license filter is supplied,
the server's license must equal it. -/
def licenseOk (filters : SearchFilters) (s : MCPServer) : Prop :=
  ∀ l, filters.license = some l → l ≠ "" → s.license = some l

/-- Spec-side reading of C2: when a docker-support filter is supplied, the
server's dockerSupport flag must equal it. -/
def dockerOk (filters : SearchFilters) (s : MCPServer) : Prop :=
  ∀ b, filters.dockerSupport = some b → s.dockerSupport = b

/-- Spec-side reading of C2: when an npm-package filter is supplied, the
presence of a (non-empty) npm package on the server must equal it. -/
def npmOk (filters : SearchFilters) (s : MCPServer) : Prop :=
  ∀ b, filters.hasNpmPackage = some b →
    (match s.npmPackage with
      | some p => decide (p ≠ "")
      | none => false) = b

/-- Spec-side reading of C2: when a minimum-downloads filter is supplied,
the server's parsed weekly downloads must reach it. -/
def minDownloadsOk (filters : SearchFilters) (s : MCPServer) : Prop :=
  ∀ md, filters.minDownloads = some md → md ≤ parseDownloads s.estWeeklyDownloads

/-- Conjunction of the ten spec-side filter predicates of C2. -/
def specFiltersOk (filters : SearchFilters) (s : MCPServer) : Prop :=
  classificationOk filters s ∧ transportOk filters s ∧ platformsOk filters s ∧
  tagsOk filters s ∧ maintainerOk filters s ∧ categoryOk filters s ∧
  licenseOk filters s ∧ dockerOk filters s ∧ npmOk filters s ∧
  minDownloadsOk filters s

/-- Negation of the classification early return. -/
theorem notFilterClassification (cl : List String) (s : MCPServer) :
    ¬(cl.length > 0 ∧ ¬ cl.contains s.classification = true) ↔
      (cl ≠ [] → s.classification ∈ cl) := by
  simp [not_and, List.length_pos, Decidable.not_not]

/-- Negation of an early return testing that some requested item is carried
by the server (transport types, supported platforms, tags). -/
theorem notFilterSome (xs ys : List String) :
    ¬(xs.length > 0 ∧ ¬ xs.any (fun t => ys.contains t) = true) ↔
      (xs ≠ [] → ∃ t ∈ xs, t ∈ ys) := by
  simp [not_and, List.length_pos, Decidable.not_not, List.any_eq_true]

/-- Negation of the maintainer early return. -/
theorem notFilterMaintainer (m? : Option String) (hay : String) :
    ¬((match m? with
      | some m => decide (m ≠ "") && ! containsSub (jsToLower hay) (jsToLower m)
      | none => false) = true) ↔
      (∀ m, m? = some m → m ≠ "" → containsSub (jsToLower hay) (jsToLower m) = true) := by
  cases m? <;>
    simp [Bool.and_eq_true, decide_eq_true_eq, Bool.not_eq_true', not_and, Bool.not_eq_false]

/-- Negation of an early return comparing an optional string field for
equality (category, license). -/
theorem notFilterEqOpt (o field : Option String) :
    ¬((match o with
      | some c => decide (c ≠ "") && decide (field ≠ some c)
      | none => false) = true) ↔
      (∀ c, o = some c → c ≠ "" → field = some c) := by
  cases o <;>
    simp [Bool.and_eq_true, decide_eq_true_eq, not_and, Decidable.not_not]

/-- Negation of an early return comparing a boolean property of the server
with a supplied boolean filter (docker support, npm-package presence). -/
theorem notFilterBoolEq (o : Option Bool) (v : Bool) :
    ¬((match o with | some b => decide (v ≠ b) | none => false) = true) ↔
      (∀ b, o = some b → v = b) := by
  cases o <;> simp [decide_eq_true_eq, Decidable.not_not]

/-- Negation of the minimum-downloads early return. -/
theorem notFilterMin (o : Option Int) (v : Int) :
    ¬((match o with | some md => decide (v < md) | none => false) = true) ↔
      (∀ md, o = some md → md ≤ v) := by
  cases o <;> simp [decide_eq_true_eq, not_lt]

set_option maxHeartbeats 1600000 in
/-- The early-return filter chain evaluates to true exactly when each of the
ten supplied filters is satisfied. -/
theorem serverPassesFilters_iff (filters : SearchFilters) (s : MCPServer) :
    serverPassesFilters (filters.classification.getD []) (filters.transportTypes.getD [])
      (filters.supportedPlatforms.getD []) (filters.tags.getD [])
      filters.maintainer filters.category filters.license filters.minDownloads
      filters.dockerSupport filters.hasNpmPackage s = true ↔
    specFiltersOk filters s := by
  unfold serverPassesFilters specFiltersOk classificationOk transportOk platformsOk tagsOk
    maintainerOk categoryOk licenseOk dockerOk npmOk minDownloadsOk
  split_ifs with h1 h2 h3 h4 h5 h6 h7 h8 h9 h10
  · simp only [Bool.false_eq_true, false_iff]
    rintro ⟨p1, p2, p3, p4, p5, p6, p7, p8, p9, p10⟩
    exact (notFilterClassification _ s).mpr p1 h1
  · simp only [Bool.false_eq_true, false_iff]
    rintro ⟨p1, p2, p3, p4, p5, p6, p7, p8, p9, p10⟩
    exact (notFilterSome _ _).mpr p2 h2
  · simp only [Bool.false_eq_true, false_iff]
    rintro ⟨p1, p2, p3, p4, p5, p6, p7, p8, p9, p10⟩
    exact (notFilterSome _ _).mpr p3 h3
  · simp only [Bool.false_eq_true, false_iff]
    rintro ⟨p1, p2, p3, p4, p5, p6, p7, p8, p9, p10⟩
    exact (notFilterSome _ _).mpr p4 h4
  · simp only [Bool.false_eq_true, false_iff]
    rintro ⟨p1, p2, p3, p4, p5, p6, p7, p8, p9, p10⟩
    exact (notFilterMaintainer _ _).mpr p5 h5
  · simp only [Bool.false_eq_true, false_iff]
    rintro ⟨p1, p2, p3, p4, p5, p6, p7, p8, p9, p10⟩
    exact (notFilterEqOpt _ _).mpr p6 h6
  · simp only [Bool.false_eq_true, false_iff]
    rintro ⟨p1, p2, p3, p4, p5, p6, p7, p8, p9, p10⟩
    exact (notFilterEqOpt _ _).mpr p7 h7
  · simp only [Bool.false_eq_true, false_iff]
    rintro ⟨p1, p2, p3, p4, p5, p6, p7, p8, p9, p10⟩
    exact (notFilterBoolEq _ _).mpr p8 h8
  · simp only [Bool.false_eq_true, false_iff]
    rintro ⟨p1, p2, p3, p4, p5, p6, p7, p8, p9, p10⟩
    exact (notFilterBoolEq _ _).mpr p9 h9
  · simp only [Bool.false_eq_true, false_iff]
    rintro ⟨p1, p2, p3, p4, p5, p6, p7, p8, p9, p10⟩
    exact (notFilterMin _ _).mpr p10 h10
  · simp only [true_iff]
    exact ⟨(notFilterClassification _ s).mp h1, (notFilterSome _ _).mp h2,
      (notFilterSome _ _).mp h3, (notFilterSome _ _).mp h4,
      (notFilterMaintainer _ _).mp h5, (notFilterEqOpt _ _).mp h6,
      (notFilterEqOpt _ _).mp h7, (notFilterBoolEq _ _).mp h8,
      (notFilterBoolEq _ _).mp h9, (notFilterMin _ _).mp h10⟩

/-- C2: a registry server is in the candidate set of a searchServers call
(candidateServers, the filter stage of searchServers) exactly when it
belongs to the registry and satisfies every supplied filter; the ten filter
predicates are conjoined, so failing any one supplied filter excludes the
server. -/
theorem claim_C2 (registry : MCPRegistry) (filters : SearchFilters) (s : MCPServer) :
    s ∈ candidateServers registry filters ↔
      s ∈ registry.servers ∧ specFiltersOk filters s := by
  unfold candidateServers
  rw [List.mem_filter, serverPassesFilters_iff]

/-- C8: searchServers returns at most limit results, taken from the sorted
scored matches starting at offset; total is the number of matches before
pagination and hasMore holds exactly when offset + limit < total. -/
theorem claim_C8 (registry : MCPRegistry) (filters : SearchFilters)
    (options : SearchOptions) :
    (searchServers registry filters options).results.length ≤ options.limit.getD 50 ∧
    (searchServers registry filters options).results =
      (((searchMatches registry filters options).mergeSort
          (sortLe (options.sortBy.getD "relevance") (options.sortOrder.getD "desc"))).drop
        (options.offset.getD 0)).take (options.limit.getD 50) ∧
    (searchServers registry filters options).total =
      (searchMatches registry filters options).length ∧
    ((searchServers registry filters options).hasMore = true ↔
      options.offset.getD 0 + options.limit.getD 50 <
        (searchServers registry filters options).total) := by
  refine ⟨List.length_take_le _ _, rfl, ?_, ?_⟩
  · simp [searchServers, List.length_mergeSort]
  · simp [searchServers]

/-- Spec-side reading of C3: the query matches the server textually, either
by case-insensitive substring containment in name, title, description,
maintainer or a tag, or by a successful fuzzy subsequence match on the name
or the description. -/
def specTextualMatch (server : MCPServer) (query : String) : Prop :=
  containsSub (jsToLower server.name) (jsToLower query) = true ∨
  containsSub (jsToLower server.title) (jsToLower query) = true ∨
  containsSub (jsToLower server.description) (jsToLower query) = true ∨
  containsSub (jsToLower server.maintainer) (jsToLower query) = true ∨
  (∃ tag ∈ server.tags, containsSub (jsToLower tag) (jsToLower query) = true) ∨
  0 < fuzzyMatch (jsToLower query) (jsToLower server.name) ∨
  0 < fuzzyMatch (jsToLower query) (jsToLower server.description)

instance (server : MCPServer) (query : String) : Decidable (specTextualMatch server query) := by
  unfold specTextualMatch
  infer_instance

/-- A fuzzy-match score is never negative. -/
theorem fuzzyMatch_nonneg (pattern text : String) : 0 ≤ fuzzyMatch pattern text := by
  unfold fuzzyMatch
  rcases h : fuzzyGo pattern.data text.data 0 0 0 with ⟨patternIdx, score⟩
  split_ifs <;> simp_all
  positivity

/-- If the query matches no field textually, the substring sum is 0. -/
theorem specSubstrScore_eq_zero (server : MCPServer) (query : String)
    (h : ¬ specTextualMatch server query) : specSubstrScore server query = 0 := by
  simp only [specTextualMatch, not_or] at h
  obtain ⟨h1, h2, h3, h4, h5, _, _⟩ := h
  have h5' : server.tags.any (fun tag => containsSub (jsToLower tag) (jsToLower query)) = false := by
    rw [← Bool.not_eq_true, List.any_eq_true]
    simpa using h5
  simp only [specSubstrScore, h1, h2, h3, h4, h5']
  norm_num

/-- If the query matches no field textually, the fuzzy bonus is 0. -/
theorem specFuzzyBonus_eq_zero (server : MCPServer) (query : String)
    (h : ¬ specTextualMatch server query) : specFuzzyBonus server query = 0 := by
  simp only [specTextualMatch, not_or, not_lt] at h
  obtain ⟨_, _, _, _, _, h6, h7⟩ := h
  have e6 : fuzzyMatch (jsToLower query) (jsToLower server.name) = 0 :=
    le_antisymm h6 (fuzzyMatch_nonneg _ _)
  have e7 : fuzzyMatch (jsToLower query) (jsToLower server.description) = 0 :=
    le_antisymm h7 (fuzzyMatch_nonneg _ _)
  simp [specFuzzyBonus, e6, e7]

/-- C3 (amended): on a non-empty query, every result returned by
searchServers either matches the query textually in some field (by
case-insensitive substring containment or by fuzzy subsequence match), or
owes its positive score to a boost: it is an official server or has more
than 1000 estimated weekly downloads. -/
theorem claim_C3 (registry : MCPRegistry) (filters : SearchFilters)
    (options : SearchOptions) (r : SearchResult)
    (hr : r ∈ (searchServers registry filters options).results)
    (hq : jsTrim (filters.query.getD "") ≠ "") :
    specTextualMatch r.server (filters.query.getD "") ∨
    r.server.classification = "official" ∨
    1000 < parseDownloads r.server.estWeeklyDownloads := by
  by_contra hcon
  push_neg at hcon
  obtain ⟨ht, hoff, hdl⟩ := hcon
  simp only [searchServers] at hr
  have hr2 : r ∈ searchMatches registry filters options :=
    List.mem_mergeSort.mp (List.mem_of_mem_drop (List.mem_of_mem_take hr))
  rw [searchMatches, if_pos hq, List.mem_filter] at hr2
  obtain ⟨hmem, hpos⟩ := hr2
  obtain ⟨server, _, hsrv⟩ := List.mem_map.mp hmem
  have hscore : r.score = calculateRelevanceScore r.server (filters.query.getD "")
      (options.fuzzy.getD true) := by
    rw [← hsrv]
  have hzero : calculateRelevanceScore r.server (filters.query.getD "")
      (options.fuzzy.getD true) = 0 := by
    rw [calcScore_eq_components,
      specSubstrScore_eq_zero _ _ ht]
    have hfb : (if (options.fuzzy.getD true) ∧ (0 : ℚ) = 0
        then specFuzzyBonus r.server (filters.query.getD "") else 0) = 0 := by
      split_ifs with hc
      · exact specFuzzyBonus_eq_zero _ _ ht
      · rfl
    rw [hfb]
    have hpop : specPopBoost r.server = 0 := by
      unfold specPopBoost
      have hd2 : ¬ parseDownloads r.server.estWeeklyDownloads > 10000 := by omega
      have hd1 : ¬ parseDownloads r.server.estWeeklyDownloads > 1000 := by omega
      rw [if_neg hd2, if_neg hd1]
    have hoffb : specOffBoost r.server = 0 := by
      unfold specOffBoost
      rw [if_neg hoff]
    rw [hpop, hoffb]
    norm_num
  rw [hscore, hzero] at hpos
  simp at hpos

/-- Minimal registry metadata for concrete test registries. -/
def plainMetadata : RegistryMetadata :=
  { version := "1.0.0"
    lastUpdated := "2025-01-01"
    totalServers := 1
    sources := []
    classifications := []
    categories := []
    tags := [] }

/-- Official server with no textual relation to the query "zzz", used to
refute claim C3 as literally stated. -/
def cexServerC3 : MCPServer :=
  { id := "postgres"
    name := "postgres"
    title := "PostgreSQL"
    description := "database access"
    maintainer := "modelcontextprotocol"
    classification := "official"
    license := some "MIT"
    estWeeklyDownloads := "N/A"
    lastUpdated := "2024-01-01"
    supportedPlatforms := ["claude"]
    transportTypes := ["stdio"]
    npmPackage := some "@modelcontextprotocol/server-postgres"
    dockerSupport := true
    tags := ["database"]
    category := some "databases" }

/-- One-server registry for the C3 counterexample. -/
def cexRegistryC3 : MCPRegistry := { metadata := plainMetadata, servers := [cexServerC3] }

/-- Filters of the C3 counterexample: only the query "zzz" is supplied. -/
def cexFiltersC3 : SearchFilters := { query := some "zzz" }

/-- Claim C3 as stated is false: for the non-empty query "zzz" the official
server cexServerC3 is returned by searchServers (its +2 official boost makes
the score positive) although no field of it matches "zzz" textually, by
substring or by fuzzy subsequence. -/
theorem claim_C3_cex :
    (searchServers cexRegistryC3 cexFiltersC3 {}).results =
      [{ server := cexServerC3, score := 2, matchedFields := [] }] ∧
    ¬ specTextualMatch cexServerC3 "zzz" := by
  have hname : containsSub (jsToLower "postgres") (jsToLower "zzz") = false := by decide
  have htitle : containsSub (jsToLower "PostgreSQL") (jsToLower "zzz") = false := by decide
  have hdesc : containsSub (jsToLower "database access") (jsToLower "zzz") = false := by decide
  have hmaint : containsSub (jsToLower "modelcontextprotocol") (jsToLower "zzz") = false := by
    decide
  have htag : containsSub (jsToLower "database") (jsToLower "zzz") = false := by decide
  have hfgo : fuzzyGo (jsToLower "zzz").data (jsToLower "postgres").data 0 0 0 = (0, 0) := by
    decide
  have hfgo2 : fuzzyGo (jsToLower "zzz").data (jsToLower "database access").data 0 0 0
      = (0, 0) := by decide
  have hlen : ((jsToLower "zzz").length = 0) = False := eq_false (by decide)
  have hlen2 : ((jsToLower "postgres").length = 0) = False := eq_false (by decide)
  have hlen3 : ((jsToLower "database access").length = 0) = False := eq_false (by decide)
  have hlen4 : ((0 : Nat) = (jsToLower "zzz").length) = False := eq_false (by decide)
  have hdl : parseDownloads "N/A" = 0 := by decide
  have hcls : (("official" : String) = "official") = True := eq_true rfl
  have hsc : calculateRelevanceScore cexServerC3 "zzz" true = 2 := by
    simp only [calculateRelevanceScore, scoreAfterSubstr, cexServerC3, hname, htitle, hdesc,
      hmaint, htag, hdl, hcls, List.any_cons, List.any_nil, if_true, if_false, Bool.or_false]
    simp only [fuzzyMatch, hfgo, hfgo2, hlen, hlen2, hlen3, hlen4, if_false]
    norm_num
  have hmf : getMatchedFields cexServerC3 "zzz" = [] := by decide
  have hcand : candidateServers cexRegistryC3 cexFiltersC3 = [cexServerC3] := by decide
  have hq : jsTrim (cexFiltersC3.query.getD "") ≠ "" := by decide
  have hqv : cexFiltersC3.query.getD "" = "zzz" := rfl
  have hps : decide ((0 : ℚ) < 2) = true := by decide
  have hm : searchMatches cexRegistryC3 cexFiltersC3 {} =
      [{ server := cexServerC3, score := 2, matchedFields := [] }] := by
    rw [searchMatches, if_pos hq, hcand]
    simp only [List.map_cons, List.map_nil, Option.getD_none, hqv, hsc, hmf]
    simp only [List.filter, hps]
  constructor
  · simp only [searchServers, hm, List.mergeSort_singleton]
    decide
  · decide

/-- Server whose name matches the witness query "abc". -/
def witServerC3 : MCPServer :=
  { id := "abc-tool"
    name := "abc"
    title := "The helper"
    description := "does things"
    maintainer := "someone"
    classification := "community"
    license := none
    estWeeklyDownloads := "N/A"
    lastUpdated := "2024-01-01"
    supportedPlatforms := ["claude"]
    transportTypes := ["stdio"]
    npmPackage := none
    dockerSupport := false
    tags := []
    category := none }

/-- One-server registry for the C3 witness. -/
def witRegistryC3 : MCPRegistry := { metadata := plainMetadata, servers := [witServerC3] }

/-- Filters of the C3 witness: only the query "abc" is supplied. -/
def witFiltersC3 : SearchFilters := { query := some "abc" }

/-- Witness for C3: at the registry holding only witServerC3 and the query
"abc", the server is returned and the theorem yields a disjunct that holds
(here the textual match). -/
theorem claim_C3_witness :
    specTextualMatch witServerC3 "abc" ∨ witServerC3.classification = "official" ∨
      1000 < parseDownloads witServerC3.estWeeklyDownloads := by
  have hname : containsSub (jsToLower "abc") (jsToLower "abc") = true := by decide
  have htitle : containsSub (jsToLower "The helper") (jsToLower "abc") = false := by decide
  have hdesc : containsSub (jsToLower "does things") (jsToLower "abc") = false := by decide
  have hmaint : containsSub (jsToLower "someone") (jsToLower "abc") = false := by decide
  have hdl : parseDownloads "N/A" = 0 := by decide
  have hcls : (("community" : String) = "official") = False := eq_false (by decide)
  have hsc : calculateRelevanceScore witServerC3 "abc" true = 10 := by
    simp only [calculateRelevanceScore, scoreAfterSubstr, witServerC3, hname, htitle, hdesc,
      hmaint, hdl, hcls, List.any_nil, if_true, if_false]
    norm_num
  have hmf : getMatchedFields witServerC3 "abc" = ["name"] := by decide
  have hcand : candidateServers witRegistryC3 witFiltersC3 = [witServerC3] := by decide
  have hq : jsTrim (witFiltersC3.query.getD "") ≠ "" := by decide
  have hqv : witFiltersC3.query.getD "" = "abc" := rfl
  have hps : decide ((0 : ℚ) < 10) = true := by decide
  have hm : searchMatches witRegistryC3 witFiltersC3 {} =
      [{ server := witServerC3, score := 10, matchedFields := ["name"] }] := by
    rw [searchMatches, if_pos hq, hcand]
    simp only [List.map_cons, List.map_nil, Option.getD_none, hqv, hsc, hmf]
    simp only [List.filter, hps]
  have hr : ({ server := witServerC3, score := 10, matchedFields := ["name"] } : SearchResult) ∈
      (searchServers witRegistryC3 witFiltersC3 {}).results := by
    simp only [searchServers, hm, List.mergeSort_singleton]
    decide
  have hmain := claim_C3 witRegistryC3 witFiltersC3 {} _ hr hq
  simpa using hmain

/-- Mutable state of MCPRegistryManager (src/registry/index.ts lines 28-35):
the cached registry and load time, plus the registry file on disk.
diskRegistry models fs.readFile(registryPath) followed by the unvalidated
JSON.parse cast of loadRegistry: the value the file currently parses to, or
the read/parse error. -/
structure ManagerState where
  diskRegistry : Except String MCPRegistry
  registry : Option MCPRegistry
  lastLoadedMs : Option Int

/-- Embeds MCPRegistryManager.loadRegistry (src/registry/index.ts lines
53-61): read and parse the registry file, caching the result and the load
time; a failure is wrapped and thrown, leaving the cache untouched. -/
def loadRegistry (nowMs : Int) (st : ManagerState) : Except String ManagerState :=
  match st.diskRegistry with
  | .ok reg => .ok { st with registry := some reg, lastLoadedMs := some nowMs }
  | .error e => .error ("Failed to load MCP registry: " ++ e)

/-- Embeds MCPRegistryManager.ensureLoaded (src/registry/index.ts lines
40-48): reload when nothing is cached or the cache is older than 5
minutes. -/
def ensureLoaded (nowMs : Int) (st : ManagerState) : Except String ManagerState :=
  if st.registry.isNone ∨ st.lastLoadedMs.isNone ∨
      nowMs - st.lastLoadedMs.getD 0 > 5 * 60 * 1000 then
    loadRegistry nowMs st
  else .ok st

/-- Embeds MCPRegistryManager.getServer (src/registry/index.ts lines 66-75). -/
def mgrGetServer (nowMs : Int) (id : String) (st : ManagerState) :
    Except String (Option MCPServer) × ManagerState :=
  match ensureLoaded nowMs st with
  | .error e => (.error e, st)
  | .ok st2 =>
    match st2.registry with
    | none => (.error "Registry not loaded", st2)
    | some reg => (.ok (reg.servers.find? (fun s => decide (s.id = id))), st2)

/-- Embeds MCPRegistryManager.getAllServers (src/registry/index.ts lines
80-88); the [...servers] spread copy is value equality here. -/
def mgrGetAllServers (nowMs : Int) (st : ManagerState) :
    Except String (List MCPServer) × ManagerState :=
  match ensureLoaded nowMs st with
  | .error e => (.error e, st)
  | .ok st2 =>
    match st2.registry with
    | none => (.error "Registry not loaded", st2)
    | some reg => (.ok reg.servers, st2)

/-- Embeds the stateful entry point of MCPRegistryManager.searchServers
(src/registry/index.ts lines 93-98 plus the pure search pipeline). -/
def mgrSearchServers (nowMs : Int) (filters : SearchFilters) (options : SearchOptions)
    (st : ManagerState) : Except String SearchResponse × ManagerState :=
  match ensureLoaded nowMs st with
  | .error e => (.error e, st)
  | .ok st2 =>
    match st2.registry with
    | none => (.error "Registry not loaded", st2)
    | some reg => (.ok (searchServers reg filters options), st2)

/-- Embeds MCPRegistryManager.getServersByCategory (src/registry/index.ts
lines 360-368). -/
def mgrGetServersByCategory (nowMs : Int) (category : String) (st : ManagerState) :
    Except String (List MCPServer) × ManagerState :=
  match ensureLoaded nowMs st with
  | .error e => (.error e, st)
  | .ok st2 =>
    match st2.registry with
    | none => (.error "Registry not loaded", st2)
    | some reg => (.ok (reg.servers.filter (fun s => decide (s.category = some category))), st2)

/-- Embeds MCPRegistryManager.getServersByTag (src/registry/index.ts lines
373-381). -/
def mgrGetServersByTag (nowMs : Int) (tag : String) (st : ManagerState) :
    Except String (List MCPServer) × ManagerState :=
  match ensureLoaded nowMs st with
  | .error e => (.error e, st)
  | .ok st2 =>
    match st2.registry with
    | none => (.error "Registry not loaded", st2)
    | some reg => (.ok (reg.servers.filter (fun s => s.tags.contains tag)), st2)

/-- Embeds MCPRegistryManager.getMetadata (src/registry/index.ts lines
447-455). -/
def mgrGetMetadata (nowMs : Int) (st : ManagerState) :
    Except String RegistryMetadata × ManagerState :=
  match ensureLoaded nowMs st with
  | .error e => (.error e, st)
  | .ok st2 =>
    match st2.registry with
    | none => (.error "Registry not loaded", st2)
    | some reg => (.ok reg.metadata, st2)

/-- Registry statistics, following RegistryStats in src/types/registry.d.ts
with the counter records as association lists. -/
structure RegistryStats where
  totalServers : Nat
  byClassification : List (String × Nat)
  byTransport : List (String × Nat)
  byAgent : List (String × Nat)
  byCategory : List (String × Nat)
  mostPopular : List MCPServer
  recentlyUpdated : List MCPServer
  trending : List MCPServer
  deriving DecidableEq, Inhabited

/-- Models acc[key] = (acc[key] || 0) + 1 on a JS object used as a counter:
update in place when the key exists, append it otherwise. -/
def bumpCount : List (String × Nat) → String → List (String × Nat)
  | [], k => [(k, 1)]
  | (k0, n) :: rest, k =>
    if k0 = k then (k0, n + 1) :: rest else (k0, n) :: bumpCount rest k

/-- Embeds the statistics computation of MCPRegistryManager.getStats
(src/registry/index.ts lines 386-442) over a loaded registry: the four
reduce counters, the two sorted top-10 lists ([...servers].sort on copies)
and trending as the top 5 of mostPopular. -/
def getStats (reg : MCPRegistry) : RegistryStats :=
  let servers := reg.servers
  let byClassification := servers.foldl (fun acc server => bumpCount acc server.classification) []
  let byTransport := servers.foldl
    (fun acc server => server.transportTypes.foldl bumpCount acc) []
  let byAgent := servers.foldl
    (fun acc server => server.supportedPlatforms.foldl bumpCount acc) []
  let byCategory := servers.foldl (fun acc server =>
    match server.category with
    | some c => if c ≠ "" then bumpCount acc c else acc
    | none => acc) []
  let mostPopular := (servers.mergeSort (fun a b =>
    parseDownloads b.estWeeklyDownloads ≤ parseDownloads a.estWeeklyDownloads)).take 10
  let recentlyUpdated := (servers.mergeSort (fun a b =>
    lexLe b.lastUpdated.data a.lastUpdated.data)).take 10
  { totalServers := servers.length
    byClassification := byClassification
    byTransport := byTransport
    byAgent := byAgent
    byCategory := byCategory
    mostPopular := mostPopular
    recentlyUpdated := recentlyUpdated
    trending := mostPopular.take 5 }

/-- Embeds the stateful MCPRegistryManager.getStats entry point. -/
def mgrGetStats (nowMs : Int) (st : ManagerState) :
    Except String RegistryStats × ManagerState :=
  match ensureLoaded nowMs st with
  | .error e => (.error e, st)
  | .ok st2 =>
    match st2.registry with
    | none => (.error "Registry not loaded", st2)
    | some reg => (.ok (getStats reg), st2)

/-- When the cache already holds the same registry the (static) disk file
parses to, ensureLoaded succeeds and preserves the cached registry. -/
theorem ensureLoaded_preserves (nowMs : Int) (st : ManagerState) (reg : MCPRegistry)
    (hloaded : st.registry = some reg) (hdisk : st.diskRegistry = Except.ok reg) :
    ∃ st2, ensureLoaded nowMs st = .ok st2 ∧ st2.registry = some reg := by
  unfold ensureLoaded loadRegistry
  split_ifs
  · rw [hdisk]
    exact ⟨_, rfl, rfl⟩
  · exact ⟨st, rfl, hloaded⟩

/-- C9: once the registry is loaded (and the static registry file still
parses to the loaded value), none of the read operations getServer,
getAllServers, searchServers, getServersByCategory, getServersByTag,
getStats, getMetadata changes the loaded server collection: the cached
registry after each call is the one loaded before it. -/
theorem claim_C9 (st : ManagerState) (reg : MCPRegistry) (nowMs : Int)
    (id category tag : String) (filters : SearchFilters) (options : SearchOptions)
    (hloaded : st.registry = some reg) (hdisk : st.diskRegistry = Except.ok reg) :
    (mgrGetServer nowMs id st).2.registry = some reg ∧
    (mgrGetAllServers nowMs st).2.registry = some reg ∧
    (mgrSearchServers nowMs filters options st).2.registry = some reg ∧
    (mgrGetServersByCategory nowMs category st).2.registry = some reg ∧
    (mgrGetServersByTag nowMs tag st).2.registry = some reg ∧
    (mgrGetStats nowMs st).2.registry = some reg ∧
    (mgrGetMetadata nowMs st).2.registry = some reg := by
  obtain ⟨st2, he, hr2⟩ := ensureLoaded_preserves nowMs st reg hloaded hdisk
  refine ⟨?_, ?_, ?_, ?_, ?_, ?_, ?_⟩ <;>
    simp only [mgrGetServer, mgrGetAllServers, mgrSearchServers, mgrGetServersByCategory,
      mgrGetServersByTag, mgrGetStats, mgrGetMetadata, he, hr2]

/-- Empty registry used by the C9 witness. -/
def witRegistryC9 : MCPRegistry := { metadata := plainMetadata, servers := [] }

/-- Loaded manager state used by the C9 witness. -/
def witStateC9 : ManagerState :=
  { diskRegistry := .ok witRegistryC9
    registry := some witRegistryC9
    lastLoadedMs := some 0 }

/-- Witness for C9 at a concrete loaded state. -/
theorem claim_C9_witness :
    (mgrGetServer 0 "filesystem" witStateC9).2.registry = some witRegistryC9 ∧
    (mgrGetAllServers 0 witStateC9).2.registry = some witRegistryC9 ∧
    (mgrSearchServers 0 {} {} witStateC9).2.registry = some witRegistryC9 ∧
    (mgrGetServersByCategory 0 "databases" witStateC9).2.registry = some witRegistryC9 ∧
    (mgrGetServersByTag 0 "database" witStateC9).2.registry = some witRegistryC9 ∧
    (mgrGetStats 0 witStateC9).2.registry = some witRegistryC9 ∧
    (mgrGetMetadata 0 witStateC9).2.registry = some witRegistryC9 :=
  claim_C9 witStateC9 witRegistryC9 0 "filesystem" "databases" "database" {} {} rfl rfl

/-- JSON values, as produced by JSON.parse and consumed by the adapters.
JSON numbers are floating point in JS; the configuration documents handled
here only ever carry integers, modelled as Int. -/
inductive JVal where
  | jnull
  | jbool (b : Bool)
  | jnum (n : Int)
  | jstr (s : String)
  | jarr (xs : List JVal)
  | jobj (fields : List (String × JVal))

instance : Inhabited JVal := ⟨.jnull⟩

/-- Models JavaScript truthiness of a JSON value (null, false, 0 and the
empty string are falsy; arrays and objects are truthy). -/
def jsTruthy : JVal → Bool
  | .jnull => false
  | .jbool b => b
  | .jnum n => decide (n ≠ 0)
  | .jstr s => decide (s ≠ "")
  | .jarr _ => true
  | .jobj _ => true

/-- Models JavaScript truthiness of a property access obj[k], where a
missing property (undefined) is falsy. -/
def jsTruthyOpt : Option JVal → Bool
  | some v => jsTruthy v
  | none => false

/-- Property read on a JS object modelled as an association list with
unique keys. -/
def objGet : List (String × JVal) → String → Option JVal
  | [], _ => none
  | (k0, v0) :: rest, k => if k0 = k then some v0 else objGet rest k

/-- Models the JS assignment obj[k] = v: replace in place when the key
exists, append otherwise. -/
def setKey : List (String × JVal) → String → JVal → List (String × JVal)
  | [], k, v => [(k, v)]
  | (k0, v0) :: rest, k, v =>
    if k0 = k then (k0, v) :: rest else (k0, v0) :: setKey rest k v

/-- Models the JS statement delete obj[k]. -/
def delKey : List (String × JVal) → String → List (String × JVal)
  | [], _ => []
  | (k0, v0) :: rest, k => if k0 = k then rest else (k0, v0) :: delKey rest k

/-- Hexadecimal digit value, used by the \u escape of the JSON parser. -/
def parseHexDigit (c : Char) : Option Nat :=
  if '0' ≤ c ∧ c ≤ '9' then some (c.toNat - '0'.toNat)
  else if 'a' ≤ c ∧ c ≤ 'f' then some (c.toNat - 'a'.toNat + 10)
  else if 'A' ≤ c ∧ c ≤ 'F' then some (c.toNat - 'A'.toNat + 10)
  else none

/-- String body of the JSON parser: consume characters up to the closing
quote, handling the JSON escapes. -/
def pString : Nat → List Char → String → Except String (String × List Char)
  | 0, _, _ => .error "parser out of fuel"
  | fuel + 1, cs, acc =>
    match cs with
    | [] => .error "unterminated string"
    | '"' :: rest => .ok (acc, rest)
    | '\\' :: esc :: rest =>
      match esc with
      | '"' => pString fuel rest (acc.push '"')
      | '\\' => pString fuel rest (acc.push '\\')
      | '/' => pString fuel rest (acc.push '/')
      | 'n' => pString fuel rest (acc.push '\n')
      | 't' => pString fuel rest (acc.push '\t')
      | 'r' => pString fuel rest (acc.push '\r')
      | 'b' => pString fuel rest (acc.push (Char.ofNat 8))
      | 'f' => pString fuel rest (acc.push (Char.ofNat 12))
      | 'u' =>
        match rest with
        | a :: b :: c :: d :: rest2 =>
          match parseHexDigit a, parseHexDigit b, parseHexDigit c, parseHexDigit d with
          | some x, some y, some z, some w =>
            pString fuel rest2 (acc.push (Char.ofNat (((x * 16 + y) * 16 + z) * 16 + w)))
          | _, _, _, _ => .error "bad unicode escape"
        | _ => .error "bad unicode escape"
      | _ => .error "bad escape"
    | c :: rest => pString fuel rest (acc.push c)

/-- Number production of the JSON parser, for the integer numbers that the
configuration documents may carry; fractional or exponent forms are not
modelled. -/
def pNumber (cs : List Char) : Except String (JVal × List Char) :=
  let (neg, cs2) : Bool × List Char :=
    match cs with
    | '-' :: rest => (true, rest)
    | rest => (false, rest)
  let digits := cs2.takeWhile Char.isDigit
  let rest := cs2.drop digits.length
  if digits.isEmpty then .error "expected a number"
  else
    match rest with
    | '.' :: _ => .error "fractional JSON numbers not modelled"
    | 'e' :: _ => .error "exponent JSON numbers not modelled"
    | 'E' :: _ => .error "exponent JSON numbers not modelled"
    | _ =>
      .ok (.jnum (if neg then -(digitsVal digits : Int) else (digitsVal digits : Int)), rest)

mutual

/-- Value production of the recursive-descent JSON parser modelling
JSON.parse; the fuel argument strictly decreases on every call and is
chosen large enough in parseJson for any input. -/
def pValue : Nat → List Char → Except String (JVal × List Char)
  | 0, _ => .error "parser out of fuel"
  | fuel + 1, cs =>
    match cs.dropWhile jsIsWs with
    | [] => .error "unexpected end of input"
    | 'n' :: 'u' :: 'l' :: 'l' :: rest => .ok (.jnull, rest)
    | 't' :: 'r' :: 'u' :: 'e' :: rest => .ok (.jbool true, rest)
    | 'f' :: 'a' :: 'l' :: 's' :: 'e' :: rest => .ok (.jbool false, rest)
    | '"' :: rest =>
      match pString fuel rest "" with
      | .ok (s, rest2) => .ok (.jstr s, rest2)
      | .error e => .error e
    | '{' :: rest => pMembers fuel rest [] true
    | '[' :: rest => pItems fuel rest [] true
    | other => pNumber other

/-- Object-member loop of the JSON parser; duplicate keys overwrite in
place, as JSON.parse does. -/
def pMembers : Nat → List Char → List (String × JVal) → Bool →
    Except String (JVal × List Char)
  | 0, _, _, _ => .error "parser out of fuel"
  | fuel + 1, cs, acc, allowClose =>
    match cs.dropWhile jsIsWs with
    | '}' :: rest => if allowClose then .ok (.jobj acc, rest) else .error "expected member"
    | '"' :: rest =>
      match pString fuel rest "" with
      | .error e => .error e
      | .ok (k, cs2) =>
        match cs2.dropWhile jsIsWs with
        | ':' :: cs3 =>
          match pValue fuel cs3 with
          | .error e => .error e
          | .ok (v, cs4) =>
            match cs4.dropWhile jsIsWs with
            | ',' :: cs5 => pMembers fuel cs5 (setKey acc k v) false
            | '}' :: cs5 => .ok (.jobj (setKey acc k v), cs5)
            | _ => .error "expected comma or closing brace"
        | _ => .error "expected colon"
    | _ => .error "expected object key"

/-- Array-item loop of the JSON parser. -/
def pItems : Nat → List Char → List JVal → Bool → Except String (JVal × List Char)
  | 0, _, _, _ => .error "parser out of fuel"
  | fuel + 1, cs, acc, allowClose =>
    match cs.dropWhile jsIsWs with
    | ']' :: rest => if allowClose then .ok (.jarr acc, rest) else .error "expected item"
    | other =>
      match pValue fuel other with
      | .error e => .error e
      | .ok (v, cs2) =>
        match cs2.dropWhile jsIsWs with
        | ',' :: cs3 => pItems fuel cs3 (acc ++ [v]) false
        | ']' :: cs3 => .ok (.jarr (acc ++ [v]), cs3)
        | _ => .error "expected comma or closing bracket"

end

/-- Models JSON.parse: parse one JSON value and require only whitespace
after it. -/
def parseJson (s : String) : Except String JVal :=
  match pValue (4 * s.data.length + 16) s.data with
  | .ok (v, rest) =>
    if (rest.dropWhile jsIsWs).isEmpty then .ok v
    else .error "unexpected trailing characters"
  | .error e => .error e

/-- String escaping of JSON.stringify (the escapes that can occur in the
configuration data handled here). -/
def escapeJson (s : String) : String :=
  s.data.foldl (fun acc c =>
    if c = '"' then acc ++ "\\\""
    else if c = '\\' then acc ++ "\\\\"
    else if c = '\n' then acc ++ "\\n"
    else if c = '\t' then acc ++ "\\t"
    else if c = '\r' then acc ++ "\\r"
    else acc.push c) ""

mutual

/-- Models JSON.stringify(v, null, 2) up to insignificant whitespace (no
claim depends on the layout of the written file). -/
def stringify : JVal → String
  | .jnull => "null"
  | .jbool true => "true"
  | .jbool false => "false"
  | .jnum n => toString n
  | .jstr s => "\"" ++ escapeJson s ++ "\""
  | .jarr xs => "[" ++ stringifyItems xs ++ "]"
  | .jobj fields => "\x7b" ++ stringifyFields fields ++ "\x7d"

/-- Comma-separated serialization of array items. -/
def stringifyItems : List JVal → String
  | [] => ""
  | [x] => stringify x
  | x :: y :: xs => stringify x ++ "," ++ stringifyItems (y :: xs)

/-- Comma-separated serialization of object members. -/
def stringifyFields : List (String × JVal) → String
  | [] => ""
  | [(k, v)] => "\"" ++ escapeJson k ++ "\":" ++ stringify v
  | (k, v) :: f :: fs =>
    "\"" ++ escapeJson k ++ "\":" ++ stringify v ++ "," ++ stringifyFields (f :: fs)

end

/-- One validation issue, following ValidationResult in
src/types/agents.d.ts. -/
structure ValidationIssue where
  path : String
  message : String
  code : String
  severity : String
  deriving Inhabited

/-- Validation result, following ValidationResult in src/types/agents.d.ts. -/
structure ValidationResult where
  valid : Bool
  errors : List ValidationIssue
  warnings : List ValidationIssue
  deriving Inhabited

/-- Models errors.map(e => e.message).join(", ") of base.ts lines 88 and
111. -/
def joinMessages (es : List ValidationIssue) : String :=
  String.intercalate ", " (es.map (fun e => e.message))

/-- Canonical server configuration handed to addServer, following
BaseServerConfig (and the url field of HttpServerConfig) in
src/types/agents.d.ts. -/
structure BaseServerConfig where
  command : Option String := none
  args : Option (List String) := none
  env : Option (List (String × String)) := none
  transport : Option String := none
  url : Option String := none
  deriving Inhabited

/-- The abstract methods of BaseAgentAdapter (src/adapters/base.ts lines
36-55), bundled as a record: each concrete adapter supplies its validate
(which subclasses override), extractServers, createConfigWithServers and
transformServerConfig. -/
structure AdapterOps where
  validate : JVal → ValidationResult
  extractServers : JVal → List (String × JVal)
  createConfigWithServers : List (String × JVal) → JVal
  transformServerConfig : String → BaseServerConfig → String → JVal

/-- Backup metadata, following BackupMetadata in src/types/config.d.ts
restricted to the fields the claims mention (the configPath, compression
and encryption flags are constants here). -/
structure BackupMetadata where
  id : String
  agent : String
  scope : String
  timestamp : String
  checksum : String
  size : Nat
  version : String
  deriving Inhabited

/-- One stored backup: metadata plus the configuration snapshot, as written
by createBackup. -/
structure BackupRecord where
  metadata : BackupMetadata
  config : JVal
  deriving Inhabited

/-- Result of createBackup, following BackupResult in
src/types/config.d.ts. -/
structure BackupResult where
  success : Bool
  backupId : String
  filePath : String
  size : Nat
  checksum : String
  error : Option String
  deriving Inhabited

/-- File-system state seen by one adapter at one scope: the configuration
file (none when missing) and the directory of backups written so far. -/
structure AgentState where
  file : Option String
  backups : List BackupRecord

/-- Embeds BaseAgentAdapter.read (src/adapters/base.ts lines 67-99): a
missing or blank file yields the adapter's empty configuration; otherwise
the content is parsed and validated, and failures are wrapped and thrown. -/
def readA (A : AdapterOps) (st : AgentState) : Except String JVal :=
  match st.file with
  | none => .ok (A.createConfigWithServers [])
  | some content =>
    if jsTrim content = "" then .ok (A.createConfigWithServers [])
    else
      match parseJson content with
      | .error e => .error ("Failed to read configuration: " ++ e)
      | .ok config =>
        let validationResult := A.validate config
        if validationResult.valid then .ok config
        else .error ("Failed to read configuration: Invalid configuration: " ++
          joinMessages validationResult.errors)

/-- Embeds BaseAgentAdapter.write (src/adapters/base.ts lines 104-125):
validate, then (ensure the directory and) rewrite the file with the
serialized configuration; an invalid configuration is rejected before any
file operation. -/
def writeA (A : AdapterOps) (config : JVal) (st : AgentState) :
    Except String Unit × AgentState :=
  let validationResult := A.validate config
  if validationResult.valid then
    (.ok (), { st with file := some (stringify config) })
  else
    (.error ("Failed to write configuration: Invalid configuration: " ++
      joinMessages validationResult.errors), st)

/-- Embeds BaseAgentAdapter.addServer (src/adapters/base.ts lines 191-217):
read, transform the new server into the agent format (default transport
stdio by JS truthiness), assign it into the server record and write. -/
def addServerA (A : AdapterOps) (serverId : String) (serverConfig : BaseServerConfig)
    (st : AgentState) : Except String Unit × AgentState :=
  match readA A st with
  | .error e => (.error ("Failed to add server " ++ serverId ++ ": " ++ e), st)
  | .ok config =>
    let servers := A.extractServers config
    let transport := match serverConfig.transport with
      | some t => if t = "" then "stdio" else t
      | none => "stdio"
    let transformedConfig := A.transformServerConfig serverId serverConfig transport
    let newConfig := A.createConfigWithServers (setKey servers serverId transformedConfig)
    let result := writeA A newConfig st
    ((match result.1 with
      | .ok _ => .ok ()
      | .error e => .error ("Failed to add server " ++ serverId ++ ": " ++ e)), result.2)

/-- Embeds BaseAgentAdapter.removeServer (src/adapters/base.ts lines
222-242): read, and only when the server id is present (truthy) delete it
and write; otherwise complete without touching the file. -/
def removeServerA (A : AdapterOps) (serverId : String) (st : AgentState) :
    Except String Unit × AgentState :=
  match readA A st with
  | .error e => (.error ("Failed to remove server " ++ serverId ++ ": " ++ e), st)
  | .ok config =>
    let servers := A.extractServers config
    if jsTruthyOpt (objGet servers serverId) then
      let newConfig := A.createConfigWithServers (delKey servers serverId)
      let result := writeA A newConfig st
      ((match result.1 with
        | .ok _ => .ok ()
        | .error e => .error ("Failed to remove server " ++ serverId ++ ": " ++ e)), result.2)
    else (.ok (), st)

/-- Embeds BaseAgentAdapter.updateServer (src/adapters/base.ts lines
247-254): update is addServer. -/
def updateServerA (A : AdapterOps) (serverId : String) (serverConfig : BaseServerConfig)
    (st : AgentState) : Except String Unit × AgentState :=
  addServerA A serverId serverConfig st

/-- Embeds the merge loop of BaseAgentAdapter.mergeConfig
(src/adapters/base.ts lines 352-358): start from a copy of the current
servers and assign each source entry whose id is absent (or falsy) in the
accumulator, or every entry when overwrite is set. -/
def mergeServers (currentServers sourceServers : List (String × JVal))
    (overwrite : Bool) : List (String × JVal) :=
  sourceServers.foldl (fun mergedServers kv =>
    if ¬ jsTruthyOpt (objGet mergedServers kv.1) ∨ overwrite then
      setKey mergedServers kv.1 kv.2
    else mergedServers) currentServers

/-- Embeds BaseAgentAdapter.mergeConfig (src/adapters/base.ts lines
341-367): read the current configuration, merge the source servers into it
and write the result. -/
def mergeConfigA (A : AdapterOps) (sourceConfig : JVal) (overwrite : Bool)
    (st : AgentState) : Except String Unit × AgentState :=
  match readA A st with
  | .error e => (.error ("Failed to merge configuration: " ++ e), st)
  | .ok currentConfig =>
    let currentServers := A.extractServers currentConfig
    let sourceServers := A.extractServers sourceConfig
    let newConfig := A.createConfigWithServers
      (mergeServers currentServers sourceServers overwrite)
    let result := writeA A newConfig st
    ((match result.1 with
      | .ok _ => .ok ()
      | .error e => .error ("Failed to merge configuration: " ++ e)), result.2)

/-- Models ToInt32 (the JS "hash = hash & hash" and the 32-bit shift
semantics). -/
def toInt32 (n : Int) : Int :=
  let r := n % 4294967296
  if r ≥ 2147483648 then r - 4294967296 else r

/-- Embeds MCPBoxConfigManager.calculateChecksum (src/utils/config.ts lines
607-615): the JS 31-multiplier string hash on 32-bit integers, printed as
the hex digits of its absolute value. -/
def calculateChecksum (content : String) : String :=
  let hash := content.data.foldl (fun hash c =>
    toInt32 (toInt32 (hash * 32) - hash + c.toNat)) 0
  String.mk (Nat.toDigits 16 hash.natAbs)

/-- Metadata that createBackup attaches to a backup of config taken at time
nowIso (the backup id sanitizes : and . to -, as the source does on the
ISO timestamp). -/
def backupMetadataFor (agent scope nowIso : String) (config : JVal) : BackupMetadata :=
  { id := agent ++ "-" ++ scope ++ "-" ++
      String.mk (nowIso.data.map (fun c => if c = ':' ∨ c = '.' then '-' else c))
    agent := agent
    scope := scope
    timestamp := nowIso
    checksum := calculateChecksum (stringify config)
    size := (stringify config).length
    version := "1.0.0" }

/-- Embeds MCPBoxConfigManager.createBackup (src/utils/config.ts lines
486-546): load the agent configuration (read + parse, loadAgentConfig),
build the checksum/timestamp metadata and append the snapshot to the backup
directory; failures are reported in the result without touching state. -/
def createBackup (agent scope nowIso : String) (st : AgentState) :
    BackupResult × AgentState :=
  match st.file with
  | none =>
    ({ success := false, backupId := "", filePath := "", size := 0, checksum := ""
       error := some ("Configuration file not found for " ++ agent ++
         " (scope: " ++ scope ++ ")") }, st)
  | some content =>
    match parseJson content with
    | .error e =>
      ({ success := false, backupId := "", filePath := "", size := 0, checksum := ""
         error := some ("Failed to load " ++ agent ++ " configuration: " ++ e) }, st)
    | .ok config =>
      let metadata := backupMetadataFor agent scope nowIso config
      let record : BackupRecord := { metadata := metadata, config := config }
      ({ success := true
         backupId := metadata.id
         filePath := metadata.id ++ ".json"
         size := metadata.size
         checksum := metadata.checksum
         error := none },
       { st with backups := st.backups ++ [record] })

/-- zod z.string() success. -/
def isJStr : JVal → Bool
  | .jstr _ => true
  | _ => false

/-- zod z.array(z.string()) success. -/
def isStringArray : JVal → Bool
  | .jarr xs => xs.all isJStr
  | _ => false

/-- zod z.record(z.string()) success. -/
def isStringRecord : JVal → Bool
  | .jobj fields => fields.all (fun kv => isJStr kv.2)
  | _ => false

/-- zod .optional() on an object field: absent is fine, present must
match. -/
def optFieldOk (fields : List (String × JVal)) (k : String) (p : JVal → Bool) : Bool :=
  match objGet fields k with
  | none => true
  | some v => p v

/-- Models Array.isArray. -/
def isArr : JVal → Bool
  | .jarr _ => true
  | _ => false

/-- Models the JS test typeof x === "object" (true for objects, arrays and
null). -/
def jsTypeofObject : JVal → Bool
  | .jobj _ => true
  | .jarr _ => true
  | .jnull => true
  | _ => false

/-- Models success of the WHATWG URL constructor new URL(s), approximated
as the presence of a leading scheme followed by a colon (every URL the
repository handles is of this shape). -/
def jsURLCanParse (s : String) : Bool :=
  match s.data with
  | [] => false
  | c :: _ =>
    c.isAlpha &&
      (let scheme := s.data.takeWhile
        (fun d => d.isAlphanum ∨ d = '+' ∨ d = '-' ∨ d = '.')
      match s.data.drop scheme.length with
      | ':' :: _ => true
      | _ => false)

/-- stdio branch of claudeServerConfigSchema (src/adapters/claude.ts lines
20-24): an object with a string command and optional args array and env
record (zod objects are non-strict: unknown keys are allowed). -/
def claudeStdioOk (v : JVal) : Bool :=
  match v with
  | .jobj fields =>
    (match objGet fields "command" with
      | some c => isJStr c
      | none => false) &&
    optFieldOk fields "args" isStringArray &&
    optFieldOk fields "env" isStringRecord
  | _ => false

/-- HTTP branch of claudeServerConfigSchema (src/adapters/claude.ts lines
26-28). -/
def claudeHttpOk (v : JVal) : Bool :=
  match v with
  | .jobj fields =>
    match objGet fields "serverUrl" with
    | some u => isJStr u
    | none => false
  | _ => false

/-- claudeServerConfigSchema: the union of the two branches. -/
def claudeServerConfigOk (v : JVal) : Bool := claudeStdioOk v || claudeHttpOk v

/-- claudeConfigSchema (src/adapters/claude.ts lines 31-33): an object with
an mcpServers record of server configurations. -/
def claudeConfigOk (c : JVal) : Bool :=
  match c with
  | .jobj fields =>
    match objGet fields "mcpServers" with
    | some (.jobj servers) => servers.all (fun kv => claudeServerConfigOk kv.2)
    | _ => false
  | _ => false

/-- Embeds BaseAgentAdapter.validate (src/adapters/base.ts lines 130-161)
over a schema-success predicate: a zod parse failure produces an invalid
result carrying the zod issues (summarized here as one generic issue). -/
def baseValidate (schemaOk : JVal → Bool) (config : JVal) : ValidationResult :=
  if schemaOk config then { valid := true, errors := [], warnings := [] }
  else
    { valid := false
      errors := [{ path := "", message := "Invalid input", code := "invalid_type"
                   severity := "error" }]
      warnings := [] }

/-- Embeds ClaudeAdapter.validateClaudeServer (src/adapters/claude.ts lines
85-113), with JS truthiness for the serverUrl/command dispatch. -/
def validateClaudeServer (serverId : String) (serverConfig : JVal) : List String :=
  let fields := match serverConfig with
    | .jobj fs => fs
    | _ => []
  if jsTruthyOpt (objGet fields "serverUrl") then
    let u := match objGet fields "serverUrl" with
      | some (.jstr s) => s
      | _ => ""
    if jsURLCanParse u then []
    else ["Invalid server URL for " ++ serverId ++ ": " ++ u]
  else if jsTruthyOpt (objGet fields "command") then
    let cmd := match objGet fields "command" with
      | some (.jstr s) => s
      | _ => ""
    (if jsTrim cmd = "" then ["Empty command for server " ++ serverId] else []) ++
    (match objGet fields "args" with
      | some a => if jsTruthy a ∧ ¬ isArr a = true then
          ["Invalid args format for server " ++ serverId ++ " (must be array)"] else []
      | none => []) ++
    (match objGet fields "env" with
      | some e => if jsTruthy e ∧ ¬ jsTypeofObject e = true then
          ["Invalid env format for server " ++ serverId ++ " (must be object)"] else []
      | none => [])
  else ["Server " ++ serverId ++ " must have either command or serverUrl"]

/-- Embeds ClaudeAdapter.extractServers (src/adapters/claude.ts lines
72-74): config.mcpServers || an empty record.  Configurations reaching this
method have passed validation, where mcpServers is an object; a truthy
non-object value (which JS would return as is) is modelled as the empty
record. -/
def claudeExtractServers (config : JVal) : List (String × JVal) :=
  match config with
  | .jobj fields =>
    match objGet fields "mcpServers" with
    | some (.jobj servers) => servers
    | _ => []
  | _ => []

/-- Embeds ClaudeAdapter.createConfigWithServers (src/adapters/claude.ts
lines 76-80). -/
def claudeCreateConfigWithServers (servers : List (String × JVal)) : JVal :=
  .jobj [("mcpServers", .jobj servers)]

/-- Embeds ClaudeAdapter.transformServerConfig (src/adapters/claude.ts
lines 52-70): an http transport with a url becomes a serverUrl object, and
everything else the stdio shape with npx defaults on falsy fields. -/
def claudeTransform (serverId : String) (serverConfig : BaseServerConfig)
    (transport : String) : JVal :=
  if transport = "http" ∧ serverConfig.url.isSome then
    .jobj [("serverUrl", .jstr (serverConfig.url.getD ""))]
  else
    .jobj
      [("command", .jstr (match serverConfig.command with
          | some c => if c = "" then "npx" else c
          | none => "npx")),
       ("args", .jarr ((match serverConfig.args with
          | some a => a
          | none => ["-y", "@modelcontextprotocol/server-" ++ serverId]).map JVal.jstr)),
       ("env", .jobj ((match serverConfig.env with
          | some e => e
          | none => ([] : List (String × String))).map
            (fun (kv : String × String) => (kv.1, JVal.jstr kv.2))))]

/-- Embeds the overridden ClaudeAdapter.validate (src/adapters/claude.ts
lines 118-171): the zod validation of the base class, then the per-server
checks; the plaintext-secret warnings of lines 145-168 are not modelled
(warnings affect no claim). -/
def claudeValidate (config : JVal) : ValidationResult :=
  let baseResult := baseValidate claudeConfigOk config
  if ¬ baseResult.valid = true then baseResult
  else
    let servers := claudeExtractServers config
    let serverIssues := servers.foldl (fun acc kv =>
      acc ++ (validateClaudeServer kv.1 kv.2).map (fun e =>
        ({ path := "mcpServers." ++ kv.1, message := e, code := "INVALID_SERVER_CONFIG"
           severity := "error" } : ValidationIssue))) []
    let errors := baseResult.errors ++ serverIssues
    { valid := if errors.length > 0 then false else baseResult.valid
      errors := errors
      warnings := baseResult.warnings }

/-- The Claude Desktop adapter (src/adapters/claude.ts) as an AdapterOps
record. -/
def claudeOps : AdapterOps :=
  { validate := claudeValidate
    extractServers := claudeExtractServers
    createConfigWithServers := claudeCreateConfigWithServers
    transformServerConfig := claudeTransform }

/-- C5: for every adapter and configuration that fails the adapter's
validation, write throws (returns the wrapped validation error) and leaves
the file state untouched; conversely the file is only ever rewritten for a
configuration that validates. -/
theorem claim_C5 (A : AdapterOps) (config : JVal) (st : AgentState) :
    ((A.validate config).valid = false →
      (writeA A config st).2 = st ∧
      (writeA A config st).1 =
        .error ("Failed to write configuration: Invalid configuration: " ++
          joinMessages (A.validate config).errors)) ∧
    ((writeA A config st).2.file ≠ st.file → (A.validate config).valid = true) := by
  constructor
  · intro h
    constructor <;> simp [writeA, h]
  · intro h
    by_contra hv
    have hf : (A.validate config).valid = false := by
      cases hb : (A.validate config).valid
      · rfl
      · exact absurd hb hv
    simp [writeA, hf] at h

/-- File state used by the C5 witness. -/
def wStC5 : AgentState := { file := some "previous", backups := [] }

/-- Witness for C5: the string document "nope" fails the Claude schema, so
write rejects it and leaves the previous file intact. -/
theorem claim_C5_witness :
    (claudeOps.validate (.jstr "nope")).valid = false ∧
    (writeA claudeOps (.jstr "nope") wStC5).2 = wStC5 ∧
    (writeA claudeOps (.jstr "nope") wStC5).1 =
      .error ("Failed to write configuration: Invalid configuration: " ++
        joinMessages (claudeOps.validate (.jstr "nope")).errors) := by
  have h : (claudeOps.validate (.jstr "nope")).valid = false := by decide
  obtain ⟨h1, h2⟩ := (claim_C5 claudeOps (.jstr "nope") wStC5).1 h
  exact ⟨h, h1, h2⟩

/-- C6: for every adapter whose empty configuration has an empty server
map (as for the concrete adapters), read of a missing or blank file
returns that empty configuration instead of raising an error. -/
theorem claim_C6 (A : AdapterOps) (st : AgentState)
    (hA : A.extractServers (A.createConfigWithServers []) = [])
    (hfile : ∀ c, st.file = some c → jsTrim c = "") :
    readA A st = .ok (A.createConfigWithServers []) ∧
    A.extractServers (A.createConfigWithServers []) = [] := by
  refine ⟨?_, hA⟩
  cases hf : st.file with
  | none => simp only [readA, hf]
  | some c =>
    simp only [readA, hf]
    rw [if_pos (hfile c hf)]

/-- File state used by the C6 witness: a whitespace-only configuration
file. -/
def wStC6 : AgentState := { file := some "  ", backups := [] }

/-- Witness for C6 on the Claude adapter and a blank file. -/
theorem claim_C6_witness :
    readA claudeOps wStC6 = .ok (claudeOps.createConfigWithServers []) ∧
    claudeOps.extractServers (claudeOps.createConfigWithServers []) = [] := by
  refine claim_C6 claudeOps wStC6 rfl ?_
  intro c hc
  cases hc
  decide

/-- C10: for every adapter, removeServer with a server id that is absent
from the configuration performs no write at all: it completes without error
and the state (file included) is unchanged. -/
theorem claim_C10 (A : AdapterOps) (serverId : String) (st : AgentState) (config : JVal)
    (hread : readA A st = .ok config)
    (habsent : objGet (A.extractServers config) serverId = none) :
    removeServerA A serverId st = (.ok (), st) := by
  unfold removeServerA
  rw [hread]
  simp [habsent, jsTruthyOpt]

/-- File state used by the C10 witness. -/
def wStC10 : AgentState := { file := none, backups := [] }

/-- Witness for C10: removing the absent id "filesystem" from a missing
Claude configuration succeeds and changes nothing. -/
theorem claim_C10_witness :
    removeServerA claudeOps "filesystem" wStC10 = (.ok (), wStC10) :=
  claim_C10 claudeOps "filesystem" wStC10 (claudeOps.createConfigWithServers []) rfl rfl

/-- write only ever touches the configuration file, never the backup
directory. -/
theorem writeA_snd_backups (A : AdapterOps) (config : JVal) (st : AgentState) :
    (writeA A config st).2.backups = st.backups := by
  simp only [writeA]
  split_ifs <;> rfl

/-- addServer never touches the backup directory. -/
theorem addServerA_backups (A : AdapterOps) (serverId : String)
    (serverConfig : BaseServerConfig) (st : AgentState) :
    (addServerA A serverId serverConfig st).2.backups = st.backups := by
  cases hr : readA A st with
  | error e => simp only [addServerA, hr]
  | ok config =>
    simp only [addServerA, hr]
    exact writeA_snd_backups A _ st

/-- removeServer never touches the backup directory. -/
theorem removeServerA_backups (A : AdapterOps) (serverId : String) (st : AgentState) :
    (removeServerA A serverId st).2.backups = st.backups := by
  cases hr : readA A st with
  | error e => simp only [removeServerA, hr]
  | ok config =>
    simp only [removeServerA, hr]
    split_ifs with h
    · exact writeA_snd_backups A _ st
    · rfl

/-- mergeConfig never touches the backup directory. -/
theorem mergeConfigA_backups (A : AdapterOps) (sourceConfig : JVal) (overwrite : Bool)
    (st : AgentState) :
    (mergeConfigA A sourceConfig overwrite st).2.backups = st.backups := by
  cases hr : readA A st with
  | error e => simp only [mergeConfigA, hr]
  | ok config =>
    simp only [mergeConfigA, hr]
    exact writeA_snd_backups A _ st

/-- C4 (amended): the destructive operations addServer, removeServer,
updateServer and mergeConfig never create a backup (the backup directory is
unchanged by each of them); a checksum-and-timestamp backup snapshot is
created only by the explicit createBackup operation, which appends the
parsed configuration with its BackupMetadata. -/
theorem claim_C4 (A : AdapterOps) (serverId : String) (serverConfig : BaseServerConfig)
    (sourceConfig : JVal) (overwrite : Bool) (agent scope nowIso content : String)
    (config : JVal) (st : AgentState)
    (hfile : st.file = some content) (hparse : parseJson content = .ok config) :
    (addServerA A serverId serverConfig st).2.backups = st.backups ∧
    (removeServerA A serverId st).2.backups = st.backups ∧
    (updateServerA A serverId serverConfig st).2.backups = st.backups ∧
    (mergeConfigA A sourceConfig overwrite st).2.backups = st.backups ∧
    (createBackup agent scope nowIso st).2.backups =
      st.backups ++ [{ metadata := backupMetadataFor agent scope nowIso config
                       config := config }] ∧
    (createBackup agent scope nowIso st).1.checksum = calculateChecksum (stringify config) ∧
    (backupMetadataFor agent scope nowIso config).timestamp = nowIso := by
  refine ⟨addServerA_backups A serverId serverConfig st,
    removeServerA_backups A serverId st,
    addServerA_backups A serverId serverConfig st,
    mergeConfigA_backups A sourceConfig overwrite st, ?_, ?_, rfl⟩
  · simp only [createBackup, hfile, hparse]
  · simp only [createBackup, hfile, hparse]
    rfl

/-- Starting state of the C4 counterexample: no configuration file, no
backups. -/
def cexStC4 : AgentState := { file := none, backups := [] }

/-- Server configuration added in the C4 counterexample. -/
def cexCfgC4 : BaseServerConfig :=
  { command := some "npx"
    args := some ["-y", "@modelcontextprotocol/server-filesystem"]
    env := some [] }

/-- Claim C4 as stated is false: addServer (through the Claude adapter)
rewrites the configuration file without creating any backup snapshot — the
operation succeeds, the file changes, and the backup directory stays
empty. -/
theorem claim_C4_cex :
    (addServerA claudeOps "filesystem" cexCfgC4 cexStC4).2.file ≠ cexStC4.file ∧
    (addServerA claudeOps "filesystem" cexCfgC4 cexStC4).2.backups = cexStC4.backups ∧
    (addServerA claudeOps "filesystem" cexCfgC4 cexStC4).1 = .ok () := by
  refine ⟨by decide, rfl, rfl⟩

/-- Configuration file content of the C4 witness. -/
def wContentC4 : String := "\x7b\"mcpServers\":\x7b\x7d\x7d"

/-- Parsed form of wContentC4. -/
def wConfigC4 : JVal := .jobj [("mcpServers", .jobj [])]

/-- State of the C4 witness: an existing empty Claude configuration. -/
def wStC4 : AgentState := { file := some wContentC4, backups := [] }

/-- Witness for C4 at the Claude adapter and a parseable configuration
file. -/
theorem claim_C4_witness :
    (addServerA claudeOps "filesystem" { } wStC4).2.backups = wStC4.backups ∧
    (removeServerA claudeOps "filesystem" wStC4).2.backups = wStC4.backups ∧
    (updateServerA claudeOps "filesystem" { } wStC4).2.backups = wStC4.backups ∧
    (mergeConfigA claudeOps (claudeCreateConfigWithServers []) false wStC4).2.backups =
      wStC4.backups ∧
    (createBackup "claude" "user" "2025-01-01T00-00-00Z" wStC4).2.backups =
      wStC4.backups ++
        [{ metadata := backupMetadataFor "claude" "user" "2025-01-01T00-00-00Z" wConfigC4
           config := wConfigC4 }] ∧
    (createBackup "claude" "user" "2025-01-01T00-00-00Z" wStC4).1.checksum =
      calculateChecksum (stringify wConfigC4) ∧
    (backupMetadataFor "claude" "user" "2025-01-01T00-00-00Z" wConfigC4).timestamp =
      "2025-01-01T00-00-00Z" :=
  claim_C4 claudeOps "filesystem" { } (claudeCreateConfigWithServers []) false
    "claude" "user" "2025-01-01T00-00-00Z" wContentC4 wConfigC4 wStC4 rfl rfl

/-- Reading the head key of an object. -/
theorem objGet_cons_self (k : String) (v : JVal) (rest : List (String × JVal)) :
    objGet ((k, v) :: rest) k = some v := by
  simp [objGet]

/-- Reading past a head entry with a different key. -/
theorem objGet_cons_ne (k id : String) (v : JVal) (rest : List (String × JVal))
    (h : ¬ k = id) : objGet ((k, v) :: rest) id = objGet rest id := by
  simp [objGet, h]

/-- Reading the key just assigned yields the assigned value. -/
theorem objGet_setKey_self (l : List (String × JVal)) (k : String) (v : JVal) :
    objGet (setKey l k v) k = some v := by
  induction l with
  | nil => simp [setKey, objGet]
  | cons kv rest ih =>
    rcases kv with ⟨k0, v0⟩
    by_cases h : k0 = k <;> simp [setKey, objGet, h, ih]

/-- Assigning one key leaves every other key unchanged. -/
theorem objGet_setKey_ne (l : List (String × JVal)) (k k2 : String) (v : JVal)
    (h : k2 ≠ k) : objGet (setKey l k v) k2 = objGet l k2 := by
  have hkk : ¬ k = k2 := fun e => h (Eq.symm e)
  induction l with
  | nil => simp [setKey, objGet, hkk]
  | cons kv rest ih =>
    rcases kv with ⟨k0, v0⟩
    by_cases h0 : k0 = k
    · subst h0
      simp [setKey, objGet, hkk]
    · simp [setKey, objGet, h0, ih]

/-- A key outside the key list reads as undefined. -/
theorem objGet_eq_none_of_not_mem (l : List (String × JVal)) (k : String)
    (h : k ∉ l.map Prod.fst) : objGet l k = none := by
  induction l with
  | nil => rfl
  | cons kv rest ih =>
    rcases kv with ⟨k0, v0⟩
    simp only [List.map_cons, List.mem_cons, not_or] at h
    obtain ⟨h1, h2⟩ := h
    have h1s : ¬ k0 = k := fun e => h1 (Eq.symm e)
    simp [objGet, h1s, ih h2]

/-- A successful read exhibits membership of the key-value pair. -/
theorem mem_of_objGet (l : List (String × JVal)) (k : String) (v : JVal)
    (h : objGet l k = some v) : (k, v) ∈ l := by
  induction l with
  | nil => simp [objGet] at h
  | cons kv rest ih =>
    rcases kv with ⟨k0, v0⟩
    by_cases h0 : k0 = k
    · subst h0
      have hv : some v0 = some v := by simpa [objGet] using h
      injection hv with hv2
      subst hv2
      exact List.mem_cons_self _ _
    · simp only [objGet, if_neg h0] at h
      exact List.mem_cons_of_mem _ (ih h)

/-- One step of the merge loop. -/
theorem mergeServers_cons (c : List (String × JVal)) (k : String) (v : JVal)
    (rest : List (String × JVal)) (ow : Bool) :
    mergeServers c ((k, v) :: rest) ow =
      mergeServers (if ¬ jsTruthyOpt (objGet c k) = true ∨ ow = true
        then setKey c k v else c) rest ow := rfl

/-- Merge lookup without overwrite (with the unique keys of a JS source
object): an id carried by the source replaces the accumulator entry exactly
when the current entry is absent or falsy. -/
theorem mergeServers_objGet_false (sourceServers : List (String × JVal)) :
    ∀ currentServers id, (sourceServers.map Prod.fst).Nodup →
    objGet (mergeServers currentServers sourceServers false) id =
      match objGet sourceServers id with
      | none => objGet currentServers id
      | some v =>
        if jsTruthyOpt (objGet currentServers id) = true then objGet currentServers id
        else some v := by
  induction sourceServers with
  | nil =>
    intro c id _
    rfl
  | cons kv rest ih =>
    intro c id hnd
    rcases kv with ⟨k, v⟩
    rw [List.map_cons, List.nodup_cons] at hnd
    obtain ⟨hk, hnd2⟩ := hnd
    rw [mergeServers_cons, ih _ id hnd2]
    by_cases hid : id = k
    · subst hid
      have hrest : objGet rest id = none := objGet_eq_none_of_not_mem rest id hk
      rw [objGet_cons_self, hrest]
      by_cases ht : jsTruthyOpt (objGet c id) = true
      · rw [if_neg (by simp [ht])]
        simp [ht]
      · rw [if_pos (by simp [ht])]
        simp [ht, objGet_setKey_self]
    · have hids : ¬ k = id := fun e => hid (Eq.symm e)
      rw [objGet_cons_ne k id v rest hids]
      by_cases ht : jsTruthyOpt (objGet c k) = true
      · rw [if_neg (by simp [ht])]
      · rw [if_pos (by simp [ht]), objGet_setKey_ne c k id v hid]

/-- Merge lookup with overwrite: every id carried by the source takes the
source value. -/
theorem mergeServers_objGet_true (sourceServers : List (String × JVal)) :
    ∀ currentServers id, (sourceServers.map Prod.fst).Nodup →
    objGet (mergeServers currentServers sourceServers true) id =
      match objGet sourceServers id with
      | none => objGet currentServers id
      | some v => some v := by
  induction sourceServers with
  | nil =>
    intro c id _
    rfl
  | cons kv rest ih =>
    intro c id hnd
    rcases kv with ⟨k, v⟩
    rw [List.map_cons, List.nodup_cons] at hnd
    obtain ⟨hk, hnd2⟩ := hnd
    rw [mergeServers_cons, if_pos (Or.inr rfl), ih _ id hnd2]
    by_cases hid : id = k
    · subst hid
      have hrest : objGet rest id = none := objGet_eq_none_of_not_mem rest id hk
      rw [objGet_cons_self, hrest]
      simp [objGet_setKey_self]
    · have hids : ¬ k = id := fun e => hid (Eq.symm e)
      rw [objGet_cons_ne k id v rest hids, objGet_setKey_ne c k id v hid]

/-- C7: for current servers whose entries are all truthy (every validated
agent configuration stores JSON objects there) and a source server record
(unique keys), the merge loop of mergeConfig keeps the current entry for
every id present in both when overwrite is off, adds ids present only in
the source, leaves ids present only in the current record unchanged under
either mode, and with overwrite on takes the source entry for every id the
source carries. -/
theorem claim_C7 (currentServers sourceServers : List (String × JVal)) (serverId : String)
    (htruthy : ∀ kv ∈ currentServers, jsTruthy kv.2 = true)
    (hnd : (sourceServers.map Prod.fst).Nodup) :
    (objGet currentServers serverId ≠ none →
      objGet (mergeServers currentServers sourceServers false) serverId =
        objGet currentServers serverId) ∧
    (objGet currentServers serverId = none → objGet sourceServers serverId ≠ none →
      objGet (mergeServers currentServers sourceServers false) serverId =
        objGet sourceServers serverId) ∧
    (objGet sourceServers serverId = none →
      objGet (mergeServers currentServers sourceServers false) serverId =
        objGet currentServers serverId ∧
      objGet (mergeServers currentServers sourceServers true) serverId =
        objGet currentServers serverId) ∧
    (objGet sourceServers serverId ≠ none →
      objGet (mergeServers currentServers sourceServers true) serverId =
        objGet sourceServers serverId) := by
  refine ⟨?_, ?_, ?_, ?_⟩
  · intro hc
    rw [mergeServers_objGet_false sourceServers currentServers serverId hnd]
    cases hs : objGet sourceServers serverId with
    | none => rfl
    | some w =>
      cases hcv : objGet currentServers serverId with
      | none => exact absurd hcv hc
      | some v =>
        have hv : jsTruthy v = true := htruthy (serverId, v) (mem_of_objGet _ _ _ hcv)
        simp [jsTruthyOpt, hv]
  · intro hc hs
    rw [mergeServers_objGet_false sourceServers currentServers serverId hnd]
    cases hsv : objGet sourceServers serverId with
    | none => exact absurd hsv hs
    | some w =>
      rw [hc]
      simp [jsTruthyOpt]
  · intro hs
    constructor
    · rw [mergeServers_objGet_false sourceServers currentServers serverId hnd, hs]
    · rw [mergeServers_objGet_true sourceServers currentServers serverId hnd, hs]
  · intro hs
    rw [mergeServers_objGet_true sourceServers currentServers serverId hnd]
    cases hsv : objGet sourceServers serverId with
    | none => exact absurd hsv hs
    | some w => rfl

/-- Current server record of the C7 witness. -/
def wCurrentC7 : List (String × JVal) := [("a", .jobj [("command", .jstr "x")])]

/-- Source server record of the C7 witness: one id in both, one only in the
source. -/
def wSourceC7 : List (String × JVal) := [("a", .jstr "y"), ("b", .jstr "z")]

/-- Witness for C7 at concrete records. -/
theorem claim_C7_witness :
    (objGet wCurrentC7 "a" ≠ none →
      objGet (mergeServers wCurrentC7 wSourceC7 false) "a" = objGet wCurrentC7 "a") ∧
    (objGet wCurrentC7 "a" = none → objGet wSourceC7 "a" ≠ none →
      objGet (mergeServers wCurrentC7 wSourceC7 false) "a" = objGet wSourceC7 "a") ∧
    (objGet wSourceC7 "a" = none →
      objGet (mergeServers wCurrentC7 wSourceC7 false) "a" = objGet wCurrentC7 "a" ∧
      objGet (mergeServers wCurrentC7 wSourceC7 true) "a" = objGet wCurrentC7 "a") ∧
    (objGet wSourceC7 "a" ≠ none →
      objGet (mergeServers wCurrentC7 wSourceC7 true) "a" = objGet wSourceC7 "a") :=
  claim_C7 wCurrentC7 wSourceC7 "a" (by decide) (by decide)
